import Mathlib

/-
Verification development for the niivue core: the spatial canonicalization
pipeline (src/nvimage.js) and the GPU raycasting/compositing kernels
(src/shader-srcs.js), shallowly embedded in Lean 4.

JavaScript numbers are modelled as exact rationals extended with a NaN
element (type F below).  Floating-point rounding is not modelled: the
properties checked here are structural (branch/flow behaviour, exact
equalities produced by copies and guards), not rounding-sensitive.
Infinities are not modelled either; the only operation that could produce
one (division by zero) is guarded at every use site relevant to a claim.
-/

/-- A JavaScript number: either NaN or an exact rational. -/
inductive F where
  | nan : F
  | num : ℚ → F
deriving DecidableEq, Repr

namespace F

/-- JS `isNaN(x)`. -/
def isNaN : F → Bool
  | nan => true
  | num _ => false

/-- JS addition (NaN-propagating). -/
def add : F → F → F
  | nan, _ => nan
  | _, nan => nan
  | num a, num b => num (a + b)

/-- JS subtraction (NaN-propagating). -/
def sub : F → F → F
  | nan, _ => nan
  | _, nan => nan
  | num a, num b => num (a - b)

/-- JS multiplication (NaN-propagating). -/
def mul : F → F → F
  | nan, _ => nan
  | _, nan => nan
  | num a, num b => num (a * b)

/-- JS negation. -/
def neg : F → F
  | nan => nan
  | num a => num (-a)

/-- JS division.  NaN-propagating; division by zero yields ±Infinity in JS,
which is not modelled (every division reached by a claim is guarded by a
nonzero test), so it is mapped to NaN here. -/
def div : F → F → F
  | nan, _ => nan
  | _, nan => nan
  | num a, num b => if b = 0 then nan else num (a / b)

/-- JS `Math.abs`. -/
def abs : F → F
  | nan => nan
  | num a => num |a|

/-- JS `<` (false whenever a NaN is involved). -/
def ltB : F → F → Bool
  | num a, num b => decide (a < b)
  | _, _ => false

/-- JS `>` (false whenever a NaN is involved). -/
def gtB : F → F → Bool
  | num a, num b => decide (b < a)
  | _, _ => false

/-- JS `<=` (false whenever a NaN is involved). -/
def leB : F → F → Bool
  | num a, num b => decide (a ≤ b)
  | _, _ => false

/-- JS `>=` (false whenever a NaN is involved). -/
def geB : F → F → Bool
  | num a, num b => decide (b ≤ a)
  | _, _ => false

/-- JS `isFinite` (no infinities are modelled, so every non-NaN is finite). -/
def isFinite : F → Bool
  | nan => false
  | num _ => true

end F

instance : Add F := ⟨F.add⟩
instance : Sub F := ⟨F.sub⟩
instance : Mul F := ⟨F.mul⟩
instance : Neg F := ⟨F.neg⟩
instance : Div F := ⟨F.div⟩

@[simp] theorem F.num_add (a b : ℚ) : F.num a + F.num b = F.num (a + b) := rfl

@[simp] theorem F.num_sub (a b : ℚ) : F.num a - F.num b = F.num (a - b) := rfl

@[simp] theorem F.num_mul (a b : ℚ) : F.num a * F.num b = F.num (a * b) := rfl

/-- JS strict equality `===` on numbers: false whenever a NaN is involved
(in particular `NaN === NaN` is false). -/
def jsEqB : F → F → Bool
  | F.num a, F.num b => decide (a = b)
  | _, _ => false

/-- JS `Math.min` (returns NaN if either argument is NaN). -/
def jsMin : F → F → F
  | F.nan, _ => F.nan
  | _, F.nan => F.nan
  | F.num a, F.num b => F.num (min a b)

/-- JS `Math.max` (returns NaN if either argument is NaN). -/
def jsMax : F → F → F
  | F.nan, _ => F.nan
  | _, F.nan => F.nan
  | F.num a, F.num b => F.num (max a b)

/-- JS `Math.round` (round half toward positive infinity). -/
def jsRound (q : ℚ) : ℤ := Int.floor (q + 1 / 2)

/-- Reading `m[i][j]` from a JS array-of-arrays of numbers; an out-of-range
read gives `undefined`, which behaves like NaN in the numeric contexts used
here. -/
def entry (m : List (List F)) (i j : ℕ) : F := (m.getD i []).getD j F.nan

/-- The parsed NIfTI header fields read by the embedded code
(nvimage.js; produced by the external nifti-reader-js collaborator). -/
structure Hdr where
  dims : List F
  pixDims : List F
  affine : List (List F)
  quatern_b : F
  quatern_c : F
  quatern_d : F
  qoffset_x : F
  qoffset_y : F
  qoffset_z : F
  qform_code : F
  sform_code : F
  scl_slope : F
  scl_inter : F
  cal_min : F
  cal_max : F

/-- Reading `hdr.pixDims[i]`. -/
def pix (h : Hdr) (i : ℕ) : F := h.pixDims.getD i F.nan

/-- nvimage.js lines 80-102, `isAffineOK(mtx)`: no NaN entry anywhere in the
4x4, and no all-zero row or column among the first three rows/columns of
the 3x3 block.  The fixed-bound loops of the source are unrolled. -/
def noNaNRow (m : List (List F)) (i : ℕ) : Bool :=
  !(entry m i 0).isNaN && !(entry m i 1).isNaN &&
  !(entry m i 2).isNaN && !(entry m i 3).isNaN

/-- Flag `iOK[i]` of `isAffineOK`: row `i` of the 3x3 block has an entry that is
not `=== 0.0`. -/
def rowOK (m : List (List F)) (i : ℕ) : Bool :=
  !(jsEqB (entry m i 0) (F.num 0)) || !(jsEqB (entry m i 1) (F.num 0)) ||
  !(jsEqB (entry m i 2) (F.num 0))

/-- Flag `jOK[j]` of `isAffineOK`: column `j` of the 3x3 block has an entry that
is not `=== 0.0`. -/
def colOK (m : List (List F)) (j : ℕ) : Bool :=
  !(jsEqB (entry m 0 j) (F.num 0)) || !(jsEqB (entry m 1 j) (F.num 0)) ||
  !(jsEqB (entry m 2 j) (F.num 0))

/-- The predicate `isAffineOK` itself. -/
def isAffineOK (m : List (List F)) : Bool :=
  noNaNRow m 0 && noNaNRow m 1 && noNaNRow m 2 && noNaNRow m 3 &&
  rowOK m 0 && rowOK m 1 && rowOK m 2 &&
  colOK m 0 && colOK m 1 && colOK m 2

/-- nvimage.js lines 164-166: `if (isNaN(x) || x === 0.0) x = 1.0`. -/
def fixPix (p : F) : F :=
  if p.isNaN || jsEqB p (F.num 0) then F.num 1 else p

/-- nvimage.js lines 170-175: the diagonal fallback affine built from the
(repaired) voxel spacings. -/
def diagAffine (x y z : F) : List (List F) :=
  [[x, F.num 0, F.num 0, F.num 0],
   [F.num 0, y, F.num 0, F.num 0],
   [F.num 0, F.num 0, z, F.num 0],
   [F.num 0, F.num 0, F.num 0, F.num 1]]

/-- nvimage.js lines 112-156: the affine derived from the header quaternion.
`jsqrt` is the external `Math.sqrt` (exact square roots are not rational, so
the collaborator function is a parameter; every theorem below holds for an
arbitrary `jsqrt`).  The loop writes each of the twelve upper cells exactly
once from non-aliased sources, so it is translated cell by cell; row 3 of
the stored affine is left untouched. -/
def quatAffine (jsqrt : F → F) (h : Hdr) : List (List F) :=
  let b := h.quatern_b
  let c := h.quatern_c
  let d := h.quatern_d
  let a := jsqrt (F.num 1 - (b * b + c * c + d * d))
  let qfac := if jsEqB (pix h 0) (F.num 0) then F.num 1 else pix h 0
  let r00 := a * a + b * b - c * c - d * d
  let r01 := F.num 2 * b * c - F.num 2 * a * d
  let r02 := F.num 2 * b * d + F.num 2 * a * c
  let r10 := F.num 2 * b * c + F.num 2 * a * d
  let r11 := a * a + c * c - b * b - d * d
  let r12 := F.num 2 * c * d - F.num 2 * a * b
  let r20 := F.num 2 * b * d - F.num 2 * a * c
  let r21 := F.num 2 * c * d + F.num 2 * a * b
  let r22 := a * a + d * d - c * c - b * b
  [[r00 * pix h 1, r01 * pix h 2, r02 * pix h 3 * qfac, h.qoffset_x],
   [r10 * pix h 1, r11 * pix h 2, r12 * pix h 3 * qfac, h.qoffset_y],
   [r20 * pix h 1, r21 * pix h 2, r22 * pix h 3 * qfac, h.qoffset_z],
   h.affine.getD 3 []]

/-- nvimage.js lines 158-177: re-validate the affine and, when it is still
malformed, replace it with the diagonal transform built from the voxel
spacings (after substituting 1.0 for NaN or zero spacings, which are also
written back to the header). -/
def fallbackAffine (h2 : Hdr) : Hdr :=
  if isAffineOK h2.affine then h2
  else
    let x := fixPix (pix h2 1)
    let y := fixPix (pix h2 2)
    let z := fixPix (pix h2 3)
    { h2 with
      pixDims := ((h2.pixDims.set 1 x).set 2 y).set 3 z,
      affine := diagAffine x y z }

/-- nvimage.js lines 103-177: the affine-resolution step of the NVImage
constructor.  Repairs scl_slope/scl_inter, optionally replaces the affine
by the quaternion-derived one, re-validates, and falls back to a diagonal
spacing transform when the result is still malformed. -/
def resolveAffine (jsqrt : F → F) (useQFormNotSForm : Bool) (h0 : Hdr) : Hdr :=
  let h1 : Hdr :=
    { h0 with
      scl_slope :=
        if h0.scl_slope.isNaN || jsEqB h0.scl_slope (F.num 0) then F.num 1
        else h0.scl_slope,
      scl_inter := if h0.scl_inter.isNaN then F.num 0 else h0.scl_inter }
  let affineOK := isAffineOK h1.affine
  let h2 : Hdr :=
    if useQFormNotSForm || !affineOK || F.gtB h1.qform_code h1.sform_code then
      { h1 with affine := quatAffine jsqrt h1 }
    else h1
  fallbackAffine h2

theorem fixPix_isNaN (p : F) : (fixPix p).isNaN = false := by
  cases p with
  | nan => simp [fixPix, F.isNaN]
  | num q => by_cases h : q = 0 <;> simp [fixPix, jsEqB, F.isNaN, h]

theorem fixPix_ne_zero (p : F) : jsEqB (fixPix p) (F.num 0) = false := by
  cases p with
  | nan => simp [fixPix, jsEqB, F.isNaN]
  | num q =>
    simp only [fixPix, F.isNaN, jsEqB, Bool.false_or]
    by_cases h : q = 0 <;> simp [h, jsEqB]

theorem isAffineOK_diagAffine (x y z : F)
    (hx1 : x.isNaN = false) (hy1 : y.isNaN = false) (hz1 : z.isNaN = false)
    (hx2 : jsEqB x (F.num 0) = false) (hy2 : jsEqB y (F.num 0) = false)
    (hz2 : jsEqB z (F.num 0) = false) :
    isAffineOK (diagAffine x y z) = true := by
  cases x <;> cases y <;> cases z <;>
    simp_all [isAffineOK, diagAffine, noNaNRow, rowOK, colOK, entry, jsEqB,
      F.isNaN]

/-- C1: for every ImageHeader (and every external square-root function and
forced-qform flag), the affine-resolution step of image construction
returns a header whose affine passes `isAffineOK` — no NaN entries and no
all-zero row/column in the 3x3 block.  The step is a total function (it
never throws); when the matrix- or quaternion-derived affine is still
malformed after re-validation it is replaced by the diagonal transform
built from the voxel spacings with 1.0 substituted for NaN or zero
spacings. -/
theorem fallbackAffine_ok (h2 : Hdr) :
    isAffineOK (fallbackAffine h2).affine = true := by
  unfold fallbackAffine
  split
  · assumption
  · exact isAffineOK_diagAffine _ _ _ (fixPix_isNaN _) (fixPix_isNaN _)
      (fixPix_isNaN _) (fixPix_ne_zero _) (fixPix_ne_zero _) (fixPix_ne_zero _)

theorem affine_resolution_wellformed (jsqrt : F → F) (useQ : Bool) (h : Hdr) :
    isAffineOK (resolveAffine jsqrt useQ h).affine = true := by
  unfold resolveAffine
  exact fallbackAffine_ok _

/-- Convenience read of a flat gl-matrix style array (out-of-range reads
give `undefined`, modelled as NaN). -/
def flat (m : List F) (i : ℕ) : F := m.getD i F.nan

/-- nvimage.js lines 285-295: `absR`, the absolute values of the affine's
3x3 block, stored flat in the order fed to `mat3.fromValues` (so
`absR[3*i + j] = |a[i][j]|`, matching the index comments in the source). -/
def absR (h : Hdr) : List F :=
  [(entry h.affine 0 0).abs, (entry h.affine 0 1).abs, (entry h.affine 0 2).abs,
   (entry h.affine 1 0).abs, (entry h.affine 1 1).abs, (entry h.affine 1 2).abs,
   (entry h.affine 2 0).abs, (entry h.affine 2 1).abs, (entry h.affine 2 2).abs]

/-- nvimage.js lines 296-328: the greedy axis-dominance assignment.
`ixyz[0]` defaults to 1, becomes 2 when `absR[3] > absR[0]`, and 3 when
`absR[6]` dominates both; `ixyz[1]` is picked from the remaining two axes;
`ixyz[2]` is whatever remains (6 - ixyz[0] - ixyz[1]). -/
def calcIxyz (h : Hdr) : ℕ × ℕ × ℕ :=
  let aR := absR h
  let i0 : ℕ :=
    if F.gtB (flat aR 6) (flat aR 0) && F.gtB (flat aR 6) (flat aR 3) then 3
    else if F.gtB (flat aR 3) (flat aR 0) then 2
    else 1
  let i1 : ℕ :=
    if i0 = 1 then (if F.gtB (flat aR 4) (flat aR 7) then 2 else 3)
    else if i0 = 2 then (if F.gtB (flat aR 1) (flat aR 7) then 1 else 3)
    else (if F.gtB (flat aR 1) (flat aR 4) then 1 else 2)
  (i0, i1, 6 - i1 - i0)

/-- nvimage.js lines 329-332: `perm = [1,2,3]; perm[ixyz[k]-1] = k+1`. -/
def calcPerm (h : Hdr) : List ℕ :=
  let i := calcIxyz h
  ((([1, 2, 3] : List ℕ).set (i.1 - 1) 1).set (i.2.1 - 1) 2).set (i.2.2 - 1) 3

/-- nvimage.js lines 333-350: `rotM`, the native affine stored as a flat
array with `rotM[4*i + j] = a[i][j]` for the first three rows and
`(0,0,0,1)` in the last four slots. -/
def rotMat (h : Hdr) : List F :=
  [entry h.affine 0 0, entry h.affine 0 1, entry h.affine 0 2, entry h.affine 0 3,
   entry h.affine 1 0, entry h.affine 1 1, entry h.affine 1 2, entry h.affine 1 3,
   entry h.affine 2 0, entry h.affine 2 1, entry h.affine 2 2, entry h.affine 2 3,
   F.num 0, F.num 0, F.num 0, F.num 1]

/-- nvimage.js lines 356-362: `R`, a copy of `rotM` whose 3x3 block has its
columns permuted: `R[i*4+j] = rotM[i*4 + perm[j] - 1]` for `i,j < 3`.  The
double loop writes each such cell once, reading only the unmodified `rotM`,
so it is translated pointwise. -/
def permuteR (rotM : List F) (perm : List ℕ) : List F :=
  (List.range 16).map fun idx =>
    if idx / 4 < 3 && idx % 4 < 3 then
      flat rotM (idx / 4 * 4 + perm.getD (idx % 4) 0 - 1)
    else flat rotM idx

/-- nvimage.js lines 363-372: the reflection flags, 1 exactly when the
corresponding diagonal entry of the permuted rotation `R` is negative. -/
def calcFlip (h : Hdr) : List ℚ :=
  let R := permuteR (rotMat h) (calcPerm h)
  [if F.ltB (flat R 0) (F.num 0) then 1 else 0,
   if F.ltB (flat R 5) (F.num 0) then 1 else 0,
   if F.ltB (flat R 10) (F.num 0) then 1 else 0]

/-- nvimage.js lines 437-444: `arrayEquals`. -/
def arrayEquals {α : Type} [DecidableEq α] (a b : List α) : Bool :=
  decide (a = b)

/-- The flat 4x4 identity (`mat4.create()` / `mat4.identity`). -/
def mat4identity : List F :=
  [F.num 1, F.num 0, F.num 0, F.num 0,
   F.num 0, F.num 1, F.num 0, F.num 0,
   F.num 0, F.num 0, F.num 1, F.num 0,
   F.num 0, F.num 0, F.num 0, F.num 1]

/-- gl-matrix `mat4.multiply(out, a, b)` (column-major):
`out[4c + r] = sum_k b[4c + k] * a[4k + r]`, with the products and the
addition written in the library's order. -/
def mat4mul (a b : List F) : List F :=
  (List.range 16).map fun idx =>
    let r := idx % 4
    let c := idx / 4
    flat b (c * 4) * flat a r + flat b (c * 4 + 1) * flat a (4 + r) +
    flat b (c * 4 + 2) * flat a (8 + r) + flat b (c * 4 + 3) * flat a (12 + r)

/-- The outputs of `calculateRAS` referenced by the claims. -/
structure RASResult where
  perm : List ℕ
  flip : List ℚ
  dimsRAS : List F
  pixDimsRAS : List F
  toRAS : List F
  matRAS : List F

/-- nvimage.js lines 279-413, `calculateRAS`: axis permutation, reflection
flags, canonical dims/spacings, the native-to-canonical transform `toRAS`
and the canonical-to-world transform `matRAS`.  `invert4` is the external
gl-matrix `mat4.invert` collaborator (returns `none` when the determinant
is zero, in which case the output matrix keeps its prior identity value).
The oblique/shear diagnostics (`calculateOblique`, `mm000`...) only log
warnings and are omitted. -/
def calculateRAS (invert4 : List F → Option (List F)) (h : Hdr) : RASResult :=
  let perm := calcPerm h
  let flip := calcFlip h
  let rotM := rotMat h
  let p0 := perm.getD 0 0
  let p1 := perm.getD 1 0
  let p2 := perm.getD 2 0
  let f0 := flip.getD 0 0
  let f1 := flip.getD 1 0
  let f2 := flip.getD 2 0
  let dimsRAS := [h.dims.getD 0 F.nan, h.dims.getD p0 F.nan,
                  h.dims.getD p1 F.nan, h.dims.getD p2 F.nan]
  let pixDimsRAS := [h.pixDims.getD 0 F.nan, h.pixDims.getD p0 F.nan,
                     h.pixDims.getD p1 F.nan, h.pixDims.getD p2 F.nan]
  let tm :=
    if arrayEquals perm [1, 2, 3] && arrayEquals flip [0, 0, 0] then
      (mat4identity, rotM)
    else
      let R := permuteR rotM perm
      let flipM := ((((((mat4identity.set 0 (F.num (1 - f0 * 2))).set 5
        (F.num (1 - f1 * 2))).set 10 (F.num (1 - f2 * 2))).set 3
        ((h.dims.getD p0 F.nan - F.num 1) * F.num f0)).set 7
        ((h.dims.getD p1 F.nan - F.num 1) * F.num f1)).set 11
        ((h.dims.getD p2 F.nan - F.num 1) * F.num f2))
      let residualR := mat4mul ((invert4 flipM).getD mat4identity) R
      let base := List.replicate 15 (F.num 0) ++ [F.num 1]
      let toR := (((((base.set (p0 - 1) (F.num (-f0 * 2 + 1))).set
        (p1 - 1 + 4) (F.num (-f1 * 2 + 1))).set (p2 - 1 + 8)
        (F.num (-f2 * 2 + 1))).set 3 (F.num f0)).set 7 (F.num f1)).set 11
        (F.num f2)
      (toR, residualR)
  { perm := perm, flip := flip, dimsRAS := dimsRAS, pixDimsRAS := pixDimsRAS,
    toRAS := tm.1, matRAS := tm.2 }

theorem calculateRAS_perm_eq (invert4 : List F → Option (List F)) (h : Hdr) :
    (calculateRAS invert4 h).perm = calcPerm h := rfl

theorem calculateRAS_flip_eq (invert4 : List F → Option (List F)) (h : Hdr) :
    (calculateRAS invert4 h).flip = calcFlip h := rfl

theorem calcPerm_isPerm (h : Hdr) : (calcPerm h).Perm [1, 2, 3] := by
  unfold calcPerm calcIxyz
  simp only []
  split_ifs <;> first | decide | simp_all

theorem calcFlip_mem (h : Hdr) : ∀ v ∈ calcFlip h, v = 0 ∨ v = 1 := by
  intro v hv
  simp only [calcFlip, List.mem_cons, List.not_mem_nil, or_false] at hv
  rcases hv with rfl | rfl | rfl <;> split <;> simp

/-- C2: for every well-formed input affine, `calculateRAS` produces a
`perm` that is a permutation of 1,2,3 (each assigned exactly once) and a
`flip` vector whose three entries each lie in 0,1. -/
theorem calculateRAS_perm_flip (invert4 : List F → Option (List F)) (h : Hdr)
    (hok : isAffineOK h.affine = true) :
    ((calculateRAS invert4 h).perm).Perm [1, 2, 3] ∧
    ∀ v ∈ (calculateRAS invert4 h).flip, v = 0 ∨ v = 1 := by
  rw [calculateRAS_perm_eq, calculateRAS_flip_eq]
  exact ⟨calcPerm_isPerm h, calcFlip_mem h⟩

/-- An example header with the identity affine, used to instantiate the
hypotheses of the claim theorems at a concrete input. -/
def hdrEx : Hdr :=
  { dims := [F.num 3, F.num 2, F.num 2, F.num 2,
             F.num 1, F.num 1, F.num 1, F.num 1],
    pixDims := [F.num 1, F.num 1, F.num 1, F.num 1,
                F.num 0, F.num 0, F.num 0, F.num 0],
    affine := [[F.num 1, F.num 0, F.num 0, F.num 0],
               [F.num 0, F.num 1, F.num 0, F.num 0],
               [F.num 0, F.num 0, F.num 1, F.num 0],
               [F.num 0, F.num 0, F.num 0, F.num 1]],
    quatern_b := F.num 0, quatern_c := F.num 0, quatern_d := F.num 0,
    qoffset_x := F.num 0, qoffset_y := F.num 0, qoffset_z := F.num 0,
    qform_code := F.num 0, sform_code := F.num 1,
    scl_slope := F.num 1, scl_inter := F.num 0,
    cal_min := F.num 0, cal_max := F.num 0 }

theorem calculateRAS_perm_flip_witness :
    isAffineOK hdrEx.affine = true ∧
    (((calculateRAS (fun _ => none) hdrEx).perm).Perm [1, 2, 3] ∧
      ∀ v ∈ (calculateRAS (fun _ => none) hdrEx).flip, v = 0 ∨ v = 1) :=
  ⟨by decide, calculateRAS_perm_flip (fun _ => none) hdrEx (by decide)⟩

/-- C5: whenever the computed permutation is the identity and the flip
flags are all zero, `calculateRAS` sets the native-to-canonical transform
`toRAS` to the 4x4 identity and sets `matRAS` exactly to the native affine
(stored flat with bottom row 0,0,0,1, i.e. `rotMat`). -/
theorem calculateRAS_identity_case (invert4 : List F → Option (List F))
    (h : Hdr) (hp : calcPerm h = [1, 2, 3]) (hf : calcFlip h = [0, 0, 0]) :
    (calculateRAS invert4 h).toRAS = mat4identity ∧
    (calculateRAS invert4 h).matRAS = rotMat h := by
  unfold calculateRAS
  rw [hp, hf]
  simp [arrayEquals]

theorem calculateRAS_identity_case_witness :
    calcPerm hdrEx = [1, 2, 3] ∧ calcFlip hdrEx = [0, 0, 0] ∧
    ((calculateRAS (fun _ => none) hdrEx).toRAS = mat4identity ∧
      (calculateRAS (fun _ => none) hdrEx).matRAS = rotMat hdrEx) :=
  ⟨by decide, by decide,
    calculateRAS_identity_case (fun _ => none) hdrEx (by decide) (by decide)⟩

/-- nvimage.js lines 505-524: the single linear scan of `calMinMax`.
`mn`/`mx` are seeded with `img[0]`; every voxel is then visited in order:
NaN voxels are counted and skipped; zero voxels are counted and skipped
only when `ignoreZeroVoxels` is set; all other voxels update the running
`Math.min`/`Math.max`.  Returns `(mn, mx, nZero, nNan)`. -/
def scanStep (ignoreZero : Bool) :
    F × F × ℕ × ℕ → F → F × F × ℕ × ℕ := fun s v =>
  if v.isNaN then (s.1, s.2.1, s.2.2.1, s.2.2.2 + 1)
  else if jsEqB v (F.num 0) then
    if ignoreZero then (s.1, s.2.1, s.2.2.1 + 1, s.2.2.2)
    else (jsMin v s.1, jsMax v s.2.1, s.2.2.1 + 1, s.2.2.2)
  else (jsMin v s.1, jsMax v s.2.1, s.2.2.1, s.2.2.2)

/-- The whole scan, seeded with `img[0]` (reading past the end of an empty
buffer gives `undefined`, modelled as NaN). -/
def scanMinMax (ignoreZero : Bool) (img : List F) : F × F × ℕ × ℕ :=
  img.foldl (scanStep ignoreZero) (img.getD 0 F.nan, img.getD 0 F.nan, 0, 0)

/-- nvimage.js lines 617-620, `intensityRaw2Scaled`:
`raw * scl_slope + scl_inter`, with a zero slope read as 1. -/
def intensityRaw2Scaled (h : Hdr) (raw : F) : F :=
  let slope := if jsEqB h.scl_slope (F.num 0) then F.num 1 else h.scl_slope
  raw * slope + h.scl_inter

/-- nvimage.js lines 527-529: the excluded-voxel count and the percentile
count `n2pct = Math.round((nVox - nZero) * percentileFrac)` (where `nZero`
is zeroed first unless `ignoreZeroVoxels` is set, then the NaN count is
added). -/
def n2pctOf (percentileFrac : ℚ) (ignoreZero : Bool) (img : List F) : ℤ :=
  let s := scanMinMax ignoreZero img
  let nZero := (if ignoreZero then s.2.2.1 else 0) + s.2.2.2
  jsRound (((img.length : ℚ) - (nZero : ℚ)) * percentileFrac)

/-- nvimage.js lines 546-559: accumulate the 1001-bin histogram.  A NaN
voxel (and, when `ignoreZeroVoxels`, a zero voxel) is skipped; otherwise
the bin `Math.round((v - mn) * scl)` is incremented.  A NaN or
out-of-range bin index lands outside the dense 0..1000 array in JS and is
never reached by the sequential walks below, so such writes are dropped.
(The source loops run one extra iteration, `i <= nVox`; the read past the
end is `undefined`, which both loops skip via their `isNaN` test.) -/
def histAccum (ignoreZero : Bool) (mn scl : F) (hist : List ℕ) (v : F) :
    List ℕ :=
  if ignoreZero && jsEqB v (F.num 0) then hist
  else if v.isNaN then hist
  else
    match (v - mn) * scl with
    | F.nan => hist
    | F.num q =>
      let idx := jsRound q
      if 0 ≤ idx ∧ idx ≤ 1000 then
        hist.set idx.toNat (hist.getD idx.toNat 0 + 1)
      else hist

/-- nvimage.js lines 560-565: `while (n < n2pct) { n += hist[lo]; lo++ }`.
Reading past bin 1000 gives `undefined`, making `n` NaN so the JS loop
exits right after the increment; fuel 1003 therefore always suffices. -/
def histLoopLo (hist : List ℕ) (n2pct : ℤ) : ℕ → ℤ → ℕ → ℕ
  | 0, _, lo => lo
  | fuel + 1, n, lo =>
    if n < n2pct then
      if lo < 1001 then
        histLoopLo hist n2pct fuel (n + (hist.getD lo 0 : ℤ)) (lo + 1)
      else lo + 1
    else lo

/-- nvimage.js lines 567-572: `hi = nBins; while (n < n2pct) { hi--;
n += hist[hi] }`.  Reading below bin 0 gives `undefined` and exits the JS
loop the same way. -/
def histLoopHi (hist : List ℕ) (n2pct : ℤ) : ℕ → ℤ → ℤ → ℤ
  | 0, _, hi => hi
  | fuel + 1, n, hi =>
    if n < n2pct then
      if 1 ≤ hi then
        histLoopHi hist n2pct fuel (n + (hist.getD (hi - 1).toNat 0 : ℤ)) (hi - 1)
      else hi - 1
    else hi

/-- nvimage.js lines 573-587: when the two percentile walks meet, expand
outward until a populated bin is found or both histogram ends are
reached. -/
def expandLoop (hist : List ℕ) : ℕ → ℤ → ℤ → ℤ × ℤ
  | 0, lo, hi => (lo, hi)
  | fuel + 1, lo, hi =>
    let s1 : ℤ × Bool :=
      if 0 < lo then (lo - 1, decide (0 < hist.getD (lo - 1).toNat 0))
      else (lo, false)
    let s2 : ℤ × Bool :=
      if s1.2 = false ∧ hi < 1000 then
        (hi + 1, decide (0 < hist.getD (hi + 1).toNat 0))
      else (hi, s1.2)
    if s2.2 || decide (s1.1 = 0 ∧ s2.1 = 1000) then (s1.1, s2.1)
    else expandLoop hist fuel s1.1 s2.1

/-- The six calibration outputs of `calMinMax` (fields of the NVImage). -/
structure CalRange where
  cal_min : F
  cal_max : F
  robust_min : F
  robust_max : F
  global_min : F
  global_max : F
deriving DecidableEq, Repr

/-- nvimage.js lines 540-613: the histogram branch of the scan path.
`nBins = 1001`, `scl = 1000 / (mx - mn)`; walk both percentile bounds,
expand a coincident pair, convert through scale/intercept, and let sane
header cal_min/cal_max override the histogram result. -/
def histPath (h : Hdr) (ignoreZero : Bool) (img : List F)
    (mn mx mnScale mxScale : F) (n2pct : ℤ) : CalRange :=
  let scl := F.num 1000 / (mx - mn)
  let hist := img.foldl (histAccum ignoreZero mn scl) (List.replicate 1001 0)
  let lo : ℤ := (histLoopLo hist n2pct 1003 0 0 : ℤ) - 1
  let hi : ℤ := histLoopHi hist n2pct 1003 0 1001
  let lh := if lo = hi then expandLoop hist 2200 lo hi else (lo, hi)
  let pct2 := intensityRaw2Scaled h (F.num (lh.1 : ℚ) / scl + mn)
  let pct98 := intensityRaw2Scaled h (F.num (lh.2 : ℚ) / scl + mn)
  let over := F.ltB h.cal_min h.cal_max && F.geB h.cal_min mnScale &&
    F.leB h.cal_max mxScale
  let pA := if over then h.cal_min else pct2
  let pB := if over then h.cal_max else pct98
  { cal_min := pA, cal_max := pB, robust_min := pA, robust_max := pB,
    global_min := mnScale, global_max := mxScale }

/-- nvimage.js lines 505-613: the scan path of `calMinMax` (reached when
neither the trusted-header nor the fixed-colormap fast path applies).
After the linear scan, if the rounded percentile count is below 1 or
`mn === mx`, calibration collapses to the observed min/max converted
through scale/intercept; otherwise the histogram branch runs. -/
def calMinMaxScan (h : Hdr) (percentileFrac : ℚ) (ignoreZero : Bool)
    (img : List F) : CalRange :=
  let s := scanMinMax ignoreZero img
  let mnScale := intensityRaw2Scaled h s.1
  let mxScale := intensityRaw2Scaled h s.2.1
  if n2pctOf percentileFrac ignoreZero img < 1 ∨ jsEqB s.1 s.2.1 = true then
    { cal_min := mnScale, cal_max := mxScale, robust_min := mnScale,
      robust_max := mxScale, global_min := mnScale, global_max := mxScale }
  else histPath h ignoreZero img s.1 s.2.1 mnScale mxScale
    (n2pctOf percentileFrac ignoreZero img)

/-- nvimage.js lines 466-614, `calMinMax`: the trusted-header fast path,
the fixed-colormap fast path (`cmMin`/`cmMax` come from the external cmaps
table; that branch leaves global_min/global_max unset, modelled as NaN),
and otherwise the scan path. -/
def calMinMax (h : Hdr) (trustCalMinMax : Bool) (cmMin cmMax : ℚ)
    (percentileFrac : ℚ) (ignoreZero : Bool) (img : List F) : CalRange :=
  if trustCalMinMax && h.cal_min.isFinite && h.cal_max.isFinite &&
      F.gtB h.cal_max h.cal_min then
    { cal_min := h.cal_min, cal_max := h.cal_max, robust_min := h.cal_min,
      robust_max := h.cal_max, global_min := h.cal_min,
      global_max := h.cal_max }
  else if cmMin ≠ cmMax then
    { cal_min := F.num cmMin, cal_max := F.num cmMax,
      robust_min := F.num cmMin, robust_max := F.num cmMax,
      global_min := F.nan, global_max := F.nan }
  else calMinMaxScan h percentileFrac ignoreZero img

/-- The non-zero, non-NaN voxel values of a buffer, in order.  This is the
set the spec says the raw min/max range over when ignoreZeroVoxels is set
(a spec-side definition, for comparison with the scan). -/
def includedVals (img : List F) : List ℚ :=
  img.filterMap fun v =>
    match v with
    | F.nan => none
    | F.num q => if q = 0 then none else some q

/-- The spec's "minimum over only the non-zero, non-NaN voxel values". -/
def specMinNonzero (img : List F) : Option ℚ := (includedVals img).min?

/-- The spec's "maximum over only the non-zero, non-NaN voxel values". -/
def specMaxNonzero (img : List F) : Option ℚ := (includedVals img).max?

theorem scanFold_minmax (xs : List F) : ∀ (a b : ℚ) (nz nn : ℕ),
    (xs.foldl (scanStep true) (F.num a, F.num b, nz, nn)).1 =
      F.num ((includedVals xs).foldl min a) ∧
    (xs.foldl (scanStep true) (F.num a, F.num b, nz, nn)).2.1 =
      F.num ((includedVals xs).foldl max b) := by
  induction xs with
  | nil => intro a b nz nn; simp [includedVals]
  | cons v rest ih =>
    intro a b nz nn
    cases v with
    | nan =>
      simpa [scanStep, includedVals, F.isNaN] using ih a b nz (nn + 1)
    | num q =>
      by_cases hq : q = 0
      · subst hq
        simpa [scanStep, includedVals, jsEqB, F.isNaN] using ih a b (nz + 1) nn
      · have hstep : scanStep true (F.num a, F.num b, nz, nn) (F.num q) =
            (F.num (min q a), F.num (max q b), nz, nn) := by
          simp [scanStep, jsEqB, F.isNaN, hq, jsMin, jsMax]
        have hinc : includedVals (F.num q :: rest) = q :: includedVals rest := by
          simp [includedVals, hq]
        rw [List.foldl_cons, hstep, hinc, List.foldl_cons, List.foldl_cons,
          min_comm a q, max_comm b q]
        exact ih (min q a) (max q b) nz nn

/-- C4 counterexample: take the buffer [0, 5] with ignoreZeroVoxels set.
The scan reports raw minimum 0 — the zero voxel at index 0 seeds the
running min/max and so contributes to the result — while the minimum over
only the non-zero, non-NaN voxel values is 5. -/
theorem calMinMax_ignoreZero_seed_cex :
    (scanMinMax true [F.num 0, F.num 5]).1 = F.num 0 ∧
    specMinNonzero [F.num 0, F.num 5] = some 5 ∧
    F.num 0 ≠ F.num 5 := by decide

/-- C4 (amended): with ignoreZeroVoxels set, zero and NaN voxels are
excluded from the raw min/max at every index except index 0: the scan is
seeded with `img[0]`, so whenever the first voxel is non-zero and non-NaN
the raw minimum and maximum equal the minimum and maximum over only the
non-zero, non-NaN voxel values; a zero (or NaN) voxel at index 0 still
contributes to the reported range. -/
theorem calMinMax_ignoreZero_minmax (img : List F) (q0 m M : ℚ)
    (h0 : img.getD 0 F.nan = F.num q0) (hq : q0 ≠ 0)
    (hm : specMinNonzero img = some m) (hM : specMaxNonzero img = some M) :
    (scanMinMax true img).1 = F.num m ∧
    (scanMinMax true img).2.1 = F.num M := by
  cases img with
  | nil =>
    simp only [List.getD_nil] at h0
    exact F.noConfusion h0
  | cons v rest =>
    simp only [List.getD_cons_zero] at h0
    subst h0
    have hstep : scanStep true (F.num q0, F.num q0, 0, 0) (F.num q0) =
        (F.num (min q0 q0), F.num (max q0 q0), 0, 0) := by
      simp [scanStep, jsEqB, F.isNaN, hq, jsMin, jsMax]
    have hfold := scanFold_minmax rest (min q0 q0) (max q0 q0) 0 0
    have hinc : includedVals (F.num q0 :: rest) = q0 :: includedVals rest := by
      simp [includedVals, hq]
    have hmin : specMinNonzero (F.num q0 :: rest) =
        some ((includedVals rest).foldl min q0) := by
      unfold specMinNonzero
      rw [hinc]
      exact List.min?_cons'
    have hmax : specMaxNonzero (F.num q0 :: rest) =
        some ((includedVals rest).foldl max q0) := by
      unfold specMaxNonzero
      rw [hinc]
      exact List.max?_cons'
    rw [hm] at hmin
    rw [hM] at hmax
    have hm2 : m = (includedVals rest).foldl min q0 := by
      exact Option.some_injective _ hmin
    have hM2 : M = (includedVals rest).foldl max q0 := by
      exact Option.some_injective _ hmax
    unfold scanMinMax
    simp only [List.getD_cons_zero, List.foldl_cons, hstep]
    rw [min_self, max_self] at hfold ⊢
    rw [hm2, hM2]
    exact hfold

theorem calMinMax_ignoreZero_minmax_witness :
    ([F.num 5, F.num 0, F.num 3] : List F).getD 0 F.nan = F.num 5 ∧
    (5 : ℚ) ≠ 0 ∧
    specMinNonzero [F.num 5, F.num 0, F.num 3] = some 3 ∧
    specMaxNonzero [F.num 5, F.num 0, F.num 3] = some 5 ∧
    ((scanMinMax true [F.num 5, F.num 0, F.num 3]).1 = F.num 3 ∧
      (scanMinMax true [F.num 5, F.num 0, F.num 3]).2.1 = F.num 5) :=
  ⟨by decide, by decide, by decide, by decide,
    calMinMax_ignoreZero_minmax [F.num 5, F.num 0, F.num 3] 5 3 5
      (by decide) (by decide) (by decide) (by decide)⟩

/-- C6: on the scan path of `calMinMax`, if the rounded percentile count is
below 1 or the raw minimum `===` the raw maximum (e.g. a buffer uniformly
filled with one value), no histogram is built and cal_min/cal_max,
robust_min/robust_max and global_min/global_max all collapse to the
observed raw min and max converted through scl_slope/scl_inter. -/
theorem calMinMaxScan_collapse (h : Hdr) (frac : ℚ) (iz : Bool)
    (img : List F)
    (hc : n2pctOf frac iz img < 1 ∨
      jsEqB (scanMinMax iz img).1 (scanMinMax iz img).2.1 = true) :
    calMinMaxScan h frac iz img =
      { cal_min := intensityRaw2Scaled h (scanMinMax iz img).1,
        cal_max := intensityRaw2Scaled h (scanMinMax iz img).2.1,
        robust_min := intensityRaw2Scaled h (scanMinMax iz img).1,
        robust_max := intensityRaw2Scaled h (scanMinMax iz img).2.1,
        global_min := intensityRaw2Scaled h (scanMinMax iz img).1,
        global_max := intensityRaw2Scaled h (scanMinMax iz img).2.1 } := by
  unfold calMinMaxScan
  simp only []
  rw [if_pos hc]

/-- A header with a non-trivial scale/intercept, for the C6 witness. -/
def hdrScl : Hdr :=
  { hdrEx with scl_slope := F.num 2, scl_inter := F.num 1 }

theorem calMinMaxScan_collapse_witness :
    (n2pctOf (1 / 50) false [F.num 3, F.num 3] < 1 ∨
      jsEqB (scanMinMax false [F.num 3, F.num 3]).1
        (scanMinMax false [F.num 3, F.num 3]).2.1 = true) ∧
    calMinMaxScan hdrScl (1 / 50) false [F.num 3, F.num 3] =
      { cal_min := F.num 7, cal_max := F.num 7, robust_min := F.num 7,
        robust_max := F.num 7, global_min := F.num 7,
        global_max := F.num 7 } :=
  ⟨Or.inr (by decide), by
    rw [calMinMaxScan_collapse hdrScl (1 / 50) false [F.num 3, F.num 3]
      (Or.inr (by decide))]
    have h1 : (scanMinMax false [F.num 3, F.num 3]).1 = F.num 3 := by decide
    have h2 : (scanMinMax false [F.num 3, F.num 3]).2.1 = F.num 3 := by decide
    rw [h1, h2]
    simp only [intensityRaw2Scaled, hdrScl, hdrEx, jsEqB]
    norm_num⟩

/-- nvimage.js lines 207-213, the DT_INT8 case of the constructor switch:
a fresh Int16 buffer of the same length (zero-initialized) receives the
source voxels via `for (var i = 0; i < vx8 - 1; i++) this.img[i] = i8[i]`
— the loop bound is `length - 1`, not `length`.  Int16 holds every Int8
value exactly, so values are modelled as integers. -/
def widenInt8 (src : List ℤ) : List ℤ :=
  (List.range src.length).map fun i =>
    if i < src.length - 1 then src.getD i 0 else 0

/-- nvimage.js lines 214-220, the DT_UINT32 case: same loop shape into a
Float64 buffer (`i < vx32 - 1`); Float64 holds every UInt32 exactly. -/
def widenUint32 (src : List ℤ) : List ℤ :=
  (List.range src.length).map fun i =>
    if i < src.length - 1 then src.getD i 0 else 0

/-- nvimage.js lines 221-227, the DT_SIGNED_INT case (`i < vxi32 - 1`);
Float64 holds every Int32 exactly. -/
def widenInt32 (src : List ℤ) : List ℤ :=
  (List.range src.length).map fun i =>
    if i < src.length - 1 then src.getD i 0 else 0

/-- nvimage.js lines 228-234, the DT_INT64 case (`i < vx - 1`);
`Number(i64[i])` is exact for |v| below 2^53, which covers the inputs used
here. -/
def widenInt64 (src : List ℤ) : List ℤ :=
  (List.range src.length).map fun i =>
    if i < src.length - 1 then src.getD i 0 else 0

/-- C3: evaluation of the widening loops at a concrete two-voxel buffer.
Every widening loop runs `i` only up to `length - 2`, so the final source
voxel is never copied and the last element of the output stays at its
zero initialization: widening [5, 7] yields [5, 0], not [5, 7], for all
four widened datatypes.  (The claim that the upconversion preserves every
voxel, including the last one, is therefore violated by the code; the
fresh output buffer is allocated with the full source length, so the
stated lossless widening is clearly the intent and the loop bound an
off-by-one slip.) -/
theorem widen_drops_last_voxel :
    widenInt8 [5, 7] = [5, 0] ∧ widenInt8 [5, 7] ≠ [5, 7] ∧
    widenUint32 [5, 7] = [5, 0] ∧ widenInt32 [5, 7] = [5, 0] ∧
    widenInt64 [5, 7] = [5, 0] := by
  decide

/-- A GLSL vec3 (exact-rational model of the shader floats). -/
structure V3 where
  x : ℚ
  y : ℚ
  z : ℚ
deriving DecidableEq, Repr

/-- A GLSL vec4; the fourth component is `.w`, which GLSL also exposes as
`.a` (used for the clip-plane offset, the traversal distance of a sample
position, and the alpha of a color). -/
structure V4 where
  x : ℚ
  y : ℚ
  z : ℚ
  w : ℚ
deriving DecidableEq, Repr

/-- An RGBA color sample or accumulator of the compositing loop. -/
structure RGBA where
  r : ℚ
  g : ℚ
  b : ℚ
  a : ℚ
deriving DecidableEq, Repr

/-- GLSL `dot(dir, clipPlane.xyz)`. -/
def dot3 (d : V3) (p : V4) : ℚ := d.x * p.x + d.y * p.y + d.z * p.z

/-- GLSL `dot(clipPlane.xyz, samplePos.xyz - 0.5)`. -/
def dotShift (p : V4) (s : V4) : ℚ :=
  p.x * (s.x - 1 / 2) + p.y * (s.y - 1 / 2) + p.z * (s.z - 1 / 2)

/-- shader-srcs.js lines 41-63 (`applyClip`, identical in fragRenderShader
and fragVolumePickingShader): given the clip-plane uniform, the ray
direction, the current sample position (with its traversal distance in
`.w`) and the remaining traversal length (both inout), return the updated
(samplePos, len).  A clip plane whose offset component exceeds 1.0, or one
orthogonal-to-degenerate against the ray, leaves both untouched;
otherwise the sample start and/or the length are clamped to the slab of
thickness 2.0 carved around the plane. -/
def applyClip (clipPlane : V4) (dir : V3) (samplePos : V4) (len : ℚ) :
    V4 × ℚ :=
  let cdot := dot3 dir clipPlane
  if clipPlane.w > 1 ∨ cdot = 0 then (samplePos, len)
  else
    let frontface := cdot > 0
    let clipThick : ℚ := 2
    let dis := (-clipPlane.w - dotShift clipPlane samplePos) / cdot
    let disBackFace :=
      (-(clipPlane.w - clipThick) - dotShift clipPlane samplePos) / cdot
    if (frontface ∧ dis ≥ len) ∨ (¬frontface ∧ dis ≤ 0) then
      ({ samplePos with w := len + 1 }, len)
    else if frontface then
      let dis2 := max 0 dis
      ({ x := samplePos.x + dir.x * dis2, y := samplePos.y + dir.y * dis2,
         z := samplePos.z + dir.z * dis2, w := dis2 },
       min disBackFace len)
    else
      let len2 := min dis len
      let dbf2 := max 0 disBackFace
      ({ x := samplePos.x + dir.x * dbf2, y := samplePos.y + dir.y * dbf2,
         z := samplePos.z + dir.z * dbf2, w := dbf2 },
       len2)

/-- C9: whenever the clip plane's offset component (`clipPlane.a`) exceeds
1.0 — the "disabled" sentinel — `applyClip` returns with the sample
position and the traversal length both exactly unmodified, for every ray
direction, sample position and length. -/
theorem applyClip_disabled (clipPlane : V4) (dir : V3) (samplePos : V4)
    (len : ℚ) (hw : clipPlane.w > 1) :
    applyClip clipPlane dir samplePos len = (samplePos, len) := by
  unfold applyClip
  exact if_pos (Or.inl hw)

theorem applyClip_disabled_witness :
    (V4.mk 0 0 1 2).w > 1 ∧
    applyClip (V4.mk 0 0 1 2) (V3.mk 0 0 1) (V4.mk (1/2) (1/2) 0 0) 1 =
      (V4.mk (1/2) (1/2) 0 0, 1) :=
  ⟨by norm_num,
    applyClip_disabled (V4.mk 0 0 1 2) (V3.mk 0 0 1) (V4.mk (1/2) (1/2) 0 0) 1
      (by norm_num)⟩

/-- shader-srcs.js line 120: `const float earlyTermination = 0.95`. -/
def earlyTermination : ℚ := 95 / 100

/-- The zero accumulator, shader-srcs.js line 118:
`vec4 colAcc = vec4(0.0,0.0,0.0,0.0)`. -/
def rgbaZero : RGBA := { r := 0, g := 0, b := 0, a := 0 }

/-- shader-srcs.js lines 124-136, the body of the precise compositing loop
of fragRenderShader for one texture sample (the ray-position bookkeeping,
`firstHit` and `backNearest` are depth-only side data and are not part of
the color accumulation).  `glPow` is the external GLSL `pow` (not rational
in general, so a parameter), `oc` the opacityCorrection exponent
(`stepSize/sliceSize`, hence 1.0 at native stepping).  Returns the new
accumulator and whether the loop `break`s (accumulated alpha above the
early-termination threshold). -/
def compositeSample (glPow : ℚ → ℚ → ℚ) (oc : ℚ) (colAcc colorSample : RGBA) :
    RGBA × Bool :=
  if colorSample.a < 1 / 100 then (colAcc, false)
  else
    let a2 := 1 - glPow (1 - colorSample.a) oc
    let acc : RGBA :=
      { r := (1 - colAcc.a) * (colorSample.r * a2) + colAcc.r,
        g := (1 - colAcc.a) * (colorSample.g * a2) + colAcc.g,
        b := (1 - colAcc.a) * (colorSample.b * a2) + colAcc.b,
        a := (1 - colAcc.a) * a2 + colAcc.a }
    (acc, decide (acc.a > earlyTermination))

/-- The compositing loop over the successive texture samples along the ray
(`while (samplePos.a <= len) { ... }`): fold `compositeSample`, stopping
when it signals `break`.  Returns the final accumulator and whether the
loop was exited early. -/
def compositeRun (glPow : ℚ → ℚ → ℚ) (oc : ℚ) :
    List RGBA → RGBA → RGBA × Bool
  | [], acc => (acc, false)
  | s :: rest, acc =>
    let r := compositeSample glPow oc acc s
    if r.2 then (r.1, true) else compositeRun glPow oc rest r.1

/-- shader-srcs.js line 138: the final alpha written to `fColor`,
`colAcc.a = (colAcc.a / earlyTermination) * backOpacity`, for the ray whose
non-skipped samples are `samples` (accumulation starts from the zero
accumulator of line 118). -/
def finalAlpha (glPow : ℚ → ℚ → ℚ) (oc : ℚ) (samples : List RGBA)
    (backOpacity : ℚ) : ℚ :=
  ((compositeRun glPow oc samples rgbaZero).1.a / earlyTermination) *
    backOpacity

theorem compositeRun_append (glPow : ℚ → ℚ → ℚ) (oc : ℚ) (pre rest : List RGBA)
    (acc : RGBA) (hpre : (compositeRun glPow oc pre acc).2 = false) :
    compositeRun glPow oc (pre ++ rest) acc =
      compositeRun glPow oc rest (compositeRun glPow oc pre acc).1 := by
  induction pre generalizing acc with
  | nil => simp [compositeRun]
  | cons s pre2 ih =>
    simp only [compositeRun, List.cons_append] at hpre ⊢
    by_cases hb : (compositeSample glPow oc acc s).2 = true
    · rw [if_pos hb] at hpre
      exact absurd hpre (by simp)
    · simp only [if_neg hb] at hpre ⊢
      exact ih _ hpre

/-- C7: in the precise compositing loop, a sample whose alpha is below the
0.01 threshold leaves the accumulator unchanged (and does not break); and
if the loop reaches a sample of alpha exactly 1.0 (the prefix before it
not having triggered early termination), the loop terminates right there
with accumulated alpha exactly 1 — above the 0.95 threshold — and with
accumulated color equal to that sample's color composited over the prior
accumulator; when the prior accumulator is empty the result is exactly the
sample's color.  `hpow` is the GLSL fact pow(0, oc) = 0. -/
theorem compositeLoop_idempotence_and_opaque (glPow : ℚ → ℚ → ℚ) (oc : ℚ)
    (pre post : List RGBA) (s : RGBA) (acc0 : RGBA)
    (hpow : glPow 0 oc = 0)
    (hpre : (compositeRun glPow oc pre acc0).2 = false)
    (hs : s.a = 1) :
    (∀ t a, t.a < 1 / 100 → compositeSample glPow oc a t = (a, false)) ∧
    compositeRun glPow oc (pre ++ s :: post) acc0 =
      ({ r := (1 - (compositeRun glPow oc pre acc0).1.a) * s.r +
            (compositeRun glPow oc pre acc0).1.r,
         g := (1 - (compositeRun glPow oc pre acc0).1.a) * s.g +
            (compositeRun glPow oc pre acc0).1.g,
         b := (1 - (compositeRun glPow oc pre acc0).1.a) * s.b +
            (compositeRun glPow oc pre acc0).1.b,
         a := 1 }, true) ∧
    ((compositeRun glPow oc pre acc0).1 = rgbaZero →
      compositeRun glPow oc (pre ++ s :: post) acc0 =
        ({ r := s.r, g := s.g, b := s.b, a := 1 }, true)) := by
  have hstep : ∀ A : RGBA, compositeSample glPow oc A s =
      ({ r := (1 - A.a) * s.r + A.r, g := (1 - A.a) * s.g + A.g,
         b := (1 - A.a) * s.b + A.b, a := 1 }, true) := by
    intro A
    unfold compositeSample
    rw [if_neg (by rw [hs]; norm_num)]
    simp only [hs, sub_self, hpow, sub_zero, mul_one, earlyTermination]
    have ha : 1 - A.a + A.a = 1 := by ring
    rw [ha]
    norm_num
  have hmain : compositeRun glPow oc (pre ++ s :: post) acc0 =
      ({ r := (1 - (compositeRun glPow oc pre acc0).1.a) * s.r +
            (compositeRun glPow oc pre acc0).1.r,
         g := (1 - (compositeRun glPow oc pre acc0).1.a) * s.g +
            (compositeRun glPow oc pre acc0).1.g,
         b := (1 - (compositeRun glPow oc pre acc0).1.a) * s.b +
            (compositeRun glPow oc pre acc0).1.b,
         a := 1 }, true) := by
    rw [compositeRun_append glPow oc pre (s :: post) acc0 hpre]
    simp only [compositeRun]
    rw [hstep]
    simp
  refine ⟨?_, hmain, ?_⟩
  · intro t a ht
    unfold compositeSample
    rw [if_pos ht]
  · intro hzero
    rw [hmain, hzero]
    simp only [rgbaZero]
    norm_num

theorem compositeLoop_idempotence_and_opaque_witness :
    (fun x _ => x) (0 : ℚ) (1 : ℚ) = 0 ∧
    (compositeRun (fun x _ => x) 1 [] rgbaZero).2 = false ∧
    (RGBA.mk (1/2) (1/3) (1/4) 1).a = 1 ∧
    ((∀ t a, t.a < 1 / 100 →
        compositeSample (fun x _ => x) 1 a t = (a, false)) ∧
      compositeRun (fun x _ => x) 1 ([] ++ RGBA.mk (1/2) (1/3) (1/4) 1 :: [])
          rgbaZero =
        ({ r := (1 - (compositeRun (fun x _ => x) 1 [] rgbaZero).1.a) * (1/2) +
              (compositeRun (fun x _ => x) 1 [] rgbaZero).1.r,
           g := (1 - (compositeRun (fun x _ => x) 1 [] rgbaZero).1.a) * (1/3) +
              (compositeRun (fun x _ => x) 1 [] rgbaZero).1.g,
           b := (1 - (compositeRun (fun x _ => x) 1 [] rgbaZero).1.a) * (1/4) +
              (compositeRun (fun x _ => x) 1 [] rgbaZero).1.b,
           a := 1 }, true) ∧
      ((compositeRun (fun x _ => x) 1 [] rgbaZero).1 = rgbaZero →
        compositeRun (fun x _ => x) 1 ([] ++ RGBA.mk (1/2) (1/3) (1/4) 1 :: [])
            rgbaZero =
          ({ r := 1/2, g := 1/3, b := 1/4, a := 1 }, true))) :=
  ⟨rfl, rfl, rfl,
    compositeLoop_idempotence_and_opaque (fun x _ => x) 1 [] []
      (RGBA.mk (1/2) (1/3) (1/4) 1) rgbaZero rfl rfl rfl⟩

theorem compositeSample_alpha_bounds (glPow : ℚ → ℚ → ℚ) (oc : ℚ)
    (acc s : RGBA)
    (hp : 0 ≤ glPow (1 - s.a) oc ∧ glPow (1 - s.a) oc ≤ 1)
    (hacc : 0 ≤ acc.a ∧ acc.a ≤ 1) :
    0 ≤ (compositeSample glPow oc acc s).1.a ∧
      (compositeSample glPow oc acc s).1.a ≤ 1 := by
  unfold compositeSample
  split
  · simpa using hacc
  · simp only []
    constructor
    · nlinarith [hp.1, hp.2, hacc.1, hacc.2]
    · nlinarith [hp.1, hp.2, hacc.1, hacc.2]

theorem compositeRun_alpha_bounds (glPow : ℚ → ℚ → ℚ) (oc : ℚ)
    (samples : List RGBA) (acc : RGBA)
    (hs : ∀ s ∈ samples, 0 ≤ glPow (1 - s.a) oc ∧ glPow (1 - s.a) oc ≤ 1)
    (hacc : 0 ≤ acc.a ∧ acc.a ≤ 1) :
    0 ≤ (compositeRun glPow oc samples acc).1.a ∧
      (compositeRun glPow oc samples acc).1.a ≤ 1 := by
  induction samples generalizing acc with
  | nil => simpa [compositeRun] using hacc
  | cons s rest ih =>
    have hb := compositeSample_alpha_bounds glPow oc acc s
      (hs s (List.mem_cons_self s rest)) hacc
    simp only [compositeRun]
    split
    · exact hb
    · exact ih _ (fun t ht => hs t (List.mem_cons_of_mem s ht)) hb

/-- C8 counterexample: a ray whose single non-skipped sample is fully
opaque (alpha 1), rendered with background opacity 1 (inside [0,1]): the
accumulated alpha reaches exactly 1, and the final output alpha —
`(colAcc.a / 0.95) * backOpacity` — is 20/19 > 1, outside [0,1].  (The
GLSL pow is only evaluated at pow(0, 1) = 0 here, which the instantiated
power function matches.) -/
theorem finalAlpha_exceeds_one_cex :
    (0 : ℚ) ≤ 1 ∧ (1 : ℚ) ≤ 1 ∧
    finalAlpha (fun x _ => x) 1 [RGBA.mk 1 0 0 1] 1 = 20 / 19 ∧
    ¬ finalAlpha (fun x _ => x) 1 [RGBA.mk 1 0 0 1] 1 ≤ 1 := by
  have hrun : compositeRun (fun x _ => x) 1 [RGBA.mk 1 0 0 1] rgbaZero =
      (RGBA.mk 1 0 0 1, true) := by
    simp only [compositeRun, compositeSample, rgbaZero, earlyTermination]
    norm_num
  refine ⟨by norm_num, by norm_num, ?_, ?_⟩ <;>
    rw [finalAlpha, hrun] <;> norm_num [earlyTermination]

/-- C8 (amended): for every ray and every background opacity in [0,1]
(and every GLSL pow sending the sampled arguments into [0,1], as pow does
on [0,1] bases with positive exponent), the accumulated alpha stays in
[0,1] throughout the loop, so the final output alpha
`(colAcc.a / 0.95) * backOpacity` lies in [0, 1/0.95] = [0, 20/19]; it can
exceed 1 (by at most a factor 1/0.95), and is only brought back to [0,1]
by the framebuffer write outside the kernel. -/
theorem finalAlpha_bounds (glPow : ℚ → ℚ → ℚ) (oc : ℚ)
    (samples : List RGBA) (bo : ℚ)
    (hs : ∀ s ∈ samples, 0 ≤ glPow (1 - s.a) oc ∧ glPow (1 - s.a) oc ≤ 1)
    (hbo : 0 ≤ bo ∧ bo ≤ 1) :
    0 ≤ finalAlpha glPow oc samples bo ∧
      finalAlpha glPow oc samples bo ≤ 20 / 19 := by
  have h := compositeRun_alpha_bounds glPow oc samples rgbaZero hs
    (by norm_num [rgbaZero])
  unfold finalAlpha earlyTermination
  have hdiv : (compositeRun glPow oc samples rgbaZero).1.a / (95 / 100) =
      (compositeRun glPow oc samples rgbaZero).1.a * (20 / 19) := by
    ring
  rw [hdiv]
  constructor
  · exact mul_nonneg (mul_nonneg h.1 (by norm_num)) hbo.1
  · nlinarith [h.1, h.2, hbo.1, hbo.2]

theorem finalAlpha_bounds_witness :
    (∀ s ∈ [RGBA.mk 1 0 0 1],
      0 ≤ (fun x (_ : ℚ) => x) (1 - s.a) 1 ∧
        (fun x (_ : ℚ) => x) (1 - s.a) 1 ≤ 1) ∧
    ((0 : ℚ) ≤ 1 ∧ (1 : ℚ) ≤ 1) ∧
    (0 ≤ finalAlpha (fun x _ => x) 1 [RGBA.mk 1 0 0 1] 1 ∧
      finalAlpha (fun x _ => x) 1 [RGBA.mk 1 0 0 1] 1 ≤ 20 / 19) :=
  ⟨by intro s hs; simp only [List.mem_singleton] at hs; subst hs; norm_num,
    ⟨by norm_num, by norm_num⟩,
    finalAlpha_bounds (fun x _ => x) 1 [RGBA.mk 1 0 0 1] 1
      (by intro s hs; simp only [List.mem_singleton] at hs; subst hs; norm_num)
      ⟨by norm_num, by norm_num⟩⟩

/-- The heap of voxel buffers: JS typed arrays are mutable references, so
buffer identity is modelled explicitly — a store of buffers indexed by
allocation order, with each image holding the index of its buffer. -/
structure BufStore where
  bufs : List (List F)

/-- An NVImage, reduced to the datum the claim is about: which store
buffer its `img` field references. -/
structure ImgRef where
  bufId : ℕ

/-- Read an image's voxel buffer from the store. -/
def readBuf (st : BufStore) (i : ℕ) : List F := st.bufs.getD i []

/-- nvimage.js lines 742-750, `clone()`: the relevant line is
`clonedImage.img = this.img.slice()` — `.slice()` allocates a fresh typed
array holding a copy of the contents, so the clone references a new buffer
(the recomputation of RAS and calibration on the clone reads, never
writes, the buffer). -/
def cloneImage (st : BufStore) (img : ImgRef) : BufStore × ImgRef :=
  (⟨st.bufs ++ [readBuf st img.bufId]⟩, ⟨st.bufs.length⟩)

/-- nvimage.js lines 758-760, `zeroImage()`: `this.img.fill(0)` overwrites
the image's own buffer in place with zeros. -/
def zeroImage (st : BufStore) (img : ImgRef) : BufStore :=
  ⟨st.bufs.set img.bufId
    (List.replicate (readBuf st img.bufId).length (F.num 0))⟩

/-- nvimage.js lines 819-823, `zerosLike()`: clone, then zero the clone. -/
def zerosLike (st : BufStore) (img : ImgRef) : BufStore × ImgRef :=
  let r := cloneImage st img
  (zeroImage r.1 r.2, r.2)

/-- C10: `clone()` gives the clone an independent copy of the voxel
buffer: for every image whose buffer lives in the store, zero-filling the
clone's buffer afterwards (`zeroImage`, as `zerosLike` does) leaves every
element of the original image's buffer unchanged — and the clone's buffer
really is all zeros of the original's length. -/
theorem clone_buffer_independent (st : BufStore) (img : ImgRef)
    (hid : img.bufId < st.bufs.length) :
    readBuf (zerosLike st img).1 img.bufId = readBuf st img.bufId ∧
    readBuf (zerosLike st img).1 (zerosLike st img).2.bufId =
      List.replicate (readBuf st img.bufId).length (F.num 0) := by
  have hne : st.bufs.length ≠ img.bufId := (Nat.ne_of_lt hid).symm
  have hread : readBuf (⟨st.bufs ++ [readBuf st img.bufId]⟩ : BufStore)
      st.bufs.length = readBuf st img.bufId := by
    unfold readBuf
    simp only [List.getD_eq_getElem?_getD, List.getElem?_concat_length,
      Option.getD_some]
  constructor
  · show ((st.bufs ++ [readBuf st img.bufId]).set st.bufs.length _).getD
        img.bufId [] = st.bufs.getD img.bufId []
    simp only [List.getD_eq_getElem?_getD]
    rw [List.getElem?_set_ne hne, List.getElem?_append_left hid]
  · show ((st.bufs ++ [readBuf st img.bufId]).set st.bufs.length
        (List.replicate (readBuf (⟨st.bufs ++ [readBuf st img.bufId]⟩ :
          BufStore) st.bufs.length).length (F.num 0))).getD st.bufs.length [] =
      List.replicate (readBuf st img.bufId).length (F.num 0)
    rw [hread]
    simp only [List.getD_eq_getElem?_getD]
    rw [List.getElem?_set_self (by simp)]
    simp

theorem clone_buffer_independent_witness :
    (ImgRef.mk 0).bufId < (BufStore.mk [[F.num 1, F.num 2]]).bufs.length ∧
    (readBuf (zerosLike (BufStore.mk [[F.num 1, F.num 2]]) (ImgRef.mk 0)).1
        (ImgRef.mk 0).bufId =
      readBuf (BufStore.mk [[F.num 1, F.num 2]]) (ImgRef.mk 0).bufId ∧
    readBuf (zerosLike (BufStore.mk [[F.num 1, F.num 2]]) (ImgRef.mk 0)).1
        (zerosLike (BufStore.mk [[F.num 1, F.num 2]]) (ImgRef.mk 0)).2.bufId =
      List.replicate
        (readBuf (BufStore.mk [[F.num 1, F.num 2]]) (ImgRef.mk 0).bufId).length
        (F.num 0)) :=
  ⟨by decide,
    clone_buffer_independent (BufStore.mk [[F.num 1, F.num 2]]) (ImgRef.mk 0)
      (by decide)⟩
